import Mathlib

/-!
Verification of the notes-app backend (src/backend/main.py) against its
specification. The data model, request handlers and store operations are
shallowly embedded below: SQLAlchemy rows become Lean structures, the
SQLite store becomes an explicit `Store` value threaded through the
handlers, Python exceptions become `Except` errors, and the two external
cryptographic collaborators (the bcrypt password primitive and the JWT
token primitive) are modelled from the contracts the specification gives
for them in sections 4.1 and 4.2.
-/

namespace NotesApp

/-- Modelled from the spec (section 4.1): the output of the external
bcrypt-class salted hashing primitive consumed through passlib. The
digest is idealized as a collision-free function of the salt and the
password, carried symbolically; `verify` recomputes the digest from the
stored salt and compares, exactly the contract's structure. The bcrypt
implementation itself is an external collaborator, not code of this
repository. -/
structure Digest where
  salt : Nat
  payload : String
deriving DecidableEq, Repr

/-- The raw salted digest computation of the idealized primitive. -/
def bcryptDigest (salt : Nat) (p : String) : Digest :=
  ⟨salt, p⟩

/-- `hash_password` from src/backend/main.py lines 35-36: delegates to
the salted hashing primitive. The salt is the fresh randomness the
primitive draws per call, made an explicit argument here. -/
def hash_password (salt : Nat) (p : String) : Digest :=
  bcryptDigest salt p

/-- `verify_password` from src/backend/main.py lines 37-38: recompute the
digest of the candidate password under the stored salt and compare. -/
def verify_password (plain : String) (hashed : Digest) : Bool :=
  bcryptDigest hashed.salt plain == hashed

/-- Modelled from the spec (section 4.2): the signature the external JWT
primitive (fastapi_jwt_auth) puts on a token, idealized as a
collision-free function of the signing key, the subject claim and the
expiry. -/
structure Signature where
  key : Nat
  subject : String
  exp : Nat
deriving DecidableEq, Repr

/-- Signing a token payload with the process-wide secret key. -/
def signPayload (key : Nat) (subject : String) (exp : Nat) : Signature :=
  ⟨key, subject, exp⟩

/-- Modelled from the spec (section 4.2): a bearer token embedding a
subject claim, an expiry timestamp and a signature. A tampered or
malformed token is one whose signature field does not match the
signature of its payload under the key. -/
structure Token where
  subject : String
  exp : Nat
  sig : Signature
deriving DecidableEq, Repr

/-- `Authorize.create_access_token(subject=...)` (src/backend/main.py
line 140), per the spec's token-service contract: embed the subject and
an expiry `now + ttl`, signed with the secret key. -/
def create_access_token (key ttl now : Nat) (subject : String) : Token :=
  ⟨subject, now + ttl, signPayload key subject (now + ttl)⟩

/-- Token verification (`Authorize.jwt_required()` followed by
`Authorize.get_jwt_subject()`), per the spec's contract: the token is
accepted iff its signature validates under the key and the expiry has
not elapsed (`now < exp`); on success the subject claim is returned. -/
def verifyToken (key now : Nat) (t : Token) : Option String :=
  if t.sig = signPayload key t.subject t.exp ∧ now < t.exp then some t.subject
  else none

/-- A row of the `users` table (src/backend/main.py lines 41-48).
Timestamps are abstract `Nat` instants. -/
structure User where
  id : Nat
  email : String
  password_hash : Digest
  created_at : Nat
deriving DecidableEq, Repr

/-- A row of the `notes` table (src/backend/main.py lines 50-59). -/
structure NoteDB where
  id : Nat
  title : String
  content : String
  user_id : Nat
  created_at : Nat
  updated_at : Nat
deriving DecidableEq, Repr

/-- The SQLite store: the two tables plus the autoincrement counters the
engine keeps for their integer primary keys. -/
structure Store where
  users : List User
  notes : List NoteDB
  nextUserId : Nat
  nextNoteId : Nat
deriving DecidableEq, Repr

/-- Request body of the auth endpoints (src/backend/main.py lines 71-73):
pydantic validates `email` as a well-formed address (`EmailStr`) and
`password` as at least 6 characters before the handler runs. -/
structure UserCreate where
  email : String
  password : String
deriving DecidableEq, Repr

/-- Response schema of registration (src/backend/main.py lines 75-80):
only `id`, `email` and `created_at` are serialized; the schema has no
password or hash field at all. -/
structure UserOut where
  id : Nat
  email : String
  created_at : Nat
deriving DecidableEq, Repr

/-- Request body of note creation (src/backend/main.py lines 82-84). -/
structure NoteIn where
  title : String
  content : String
deriving DecidableEq, Repr

/-- Response schema for notes (src/backend/main.py lines 86-91). -/
structure NoteOut where
  title : String
  content : String
  id : Nat
  user_id : Nat
  created_at : Nat
deriving DecidableEq, Repr

/-- Login success body (src/backend/main.py line 141). -/
structure TokenResponse where
  access_token : Token
  token_type : String
deriving DecidableEq, Repr

/-- The typed failures a request can end in. The first four are the
structured HTTP errors of the spec's taxonomy (401, 404, 400, 422).
`InternalError` models an uncaught Python exception escaping a handler
(server error 500) — e.g. the `AttributeError` raised by `user.id` when
`user` is `None`; it is distinct from every structured error. -/
inductive ApiError
  | Unauthorized
  | NotFound
  | Conflict
  | ValidationError
  | InternalError
deriving DecidableEq, Repr

instance {ε α : Type} [DecidableEq ε] [DecidableEq α] : DecidableEq (Except ε α) :=
  fun x y =>
    match x, y with
    | .error a, .error b =>
        if h : a = b then .isTrue (by rw [h]) else
          .isFalse (fun hh => h (Except.error.inj hh))
    | .error _, .ok _ => .isFalse (fun hh => Except.noConfusion hh)
    | .ok _, .error _ => .isFalse (fun hh => Except.noConfusion hh)
    | .ok a, .ok b =>
        if h : a = b then .isTrue (by rw [h]) else
          .isFalse (fun hh => h (Except.ok.inj hh))

/-- `db.query(User).filter(User.email == e).first()`: the first user row
whose email matches. -/
def find_user_by_email (s : Store) (e : String) : Option User :=
  s.users.find? (fun u => u.email == e)

/-- Serialization of a note row through `NoteOut` (orm_mode). -/
def noteOut (n : NoteDB) : NoteOut :=
  ⟨n.title, n.content, n.id, n.user_id, n.created_at⟩

/-- The pydantic validation of `UserCreate` performed by FastAPI before
either auth handler runs: `EmailStr` plus `constr(min_length=6)`. The
email well-formedness test of the external email-validator library is
kept abstract as a parameter. -/
def validUserCreate (validEmail : String → Bool) (email password : String) : Bool :=
  validEmail email && 6 ≤ password.length

/-- Body parsing for the auth routes: a request reaches the handler only
if `UserCreate` validation succeeds. -/
def parseUserCreate (validEmail : String → Bool) (email password : String) :
    Option UserCreate :=
  if validUserCreate validEmail email password then some ⟨email, password⟩ else none

/-- `register` (src/backend/main.py lines 123-132): reject with Conflict
(400) when the email is already present, otherwise insert a new user row
and return it through `UserOut`. `now` is the request instant
(`datetime.utcnow`), `salt` the randomness bcrypt draws for the hash.
The returned store is the state after the request. -/
def register (now salt : Nat) (u : UserCreate) (s : Store) :
    Except ApiError UserOut × Store :=
  match find_user_by_email s u.email with
  | some _ => (.error .Conflict, s)
  | none =>
      let new : User := ⟨s.nextUserId, u.email, hash_password salt u.password, now⟩
      (.ok ⟨new.id, new.email, new.created_at⟩,
        { s with users := s.users ++ [new], nextUserId := s.nextUserId + 1 })

/-- The POST /auth/register route: pydantic validation, then the
handler. -/
def registerRoute (validEmail : String → Bool) (now salt : Nat)
    (email password : String) (s : Store) : Except ApiError UserOut × Store :=
  match parseUserCreate validEmail email password with
  | none => (.error .ValidationError, s)
  | some u => register now salt u s

/-- `login` (src/backend/main.py lines 134-141): look the user up by
email, reject with 401 when absent or when the password fails to verify,
otherwise issue a token whose subject is the user's email. -/
def login (key ttl now : Nat) (u : UserCreate) (s : Store) :
    Except ApiError TokenResponse :=
  match find_user_by_email s u.email with
  | none => .error .Unauthorized
  | some db_user =>
      if verify_password u.password db_user.password_hash then
        .ok ⟨create_access_token key ttl now db_user.email, "bearer"⟩
      else .error .Unauthorized

/-- The POST /auth/login route: the body is validated with the same
`UserCreate` schema as registration (src/backend/main.py line 135), then
the handler runs. -/
def loginRoute (validEmail : String → Bool) (key ttl now : Nat)
    (email password : String) (s : Store) : Except ApiError TokenResponse :=
  match parseUserCreate validEmail email password with
  | none => .error .ValidationError
  | some u => login key ttl now u s

/-- `create_note` (src/backend/main.py lines 144-155): verify the bearer
token, resolve the subject to a user row — this handler alone guards the
unresolved case with 401 (lines 149-150) — then insert the note owned by
that user. -/
def create_note (key now : Nat) (t : Token) (note : NoteIn) (s : Store) :
    Except ApiError NoteOut × Store :=
  match verifyToken key now t with
  | none => (.error .Unauthorized, s)
  | some current_email =>
      match find_user_by_email s current_email with
      | none => (.error .Unauthorized, s)
      | some user =>
          let db_note : NoteDB := ⟨s.nextNoteId, note.title, note.content, user.id, now, now⟩
          (.ok (noteOut db_note),
            { s with notes := s.notes ++ [db_note], nextNoteId := s.nextNoteId + 1 })

/-- `get_notes` (src/backend/main.py lines 157-163): verify the token,
resolve the subject, and return the caller's notes. The handler performs
no `None` check before `user.id` (line 162): an unresolved subject makes
the attribute access raise, surfacing as an internal error, not 401. -/
def get_notes (key now : Nat) (t : Token) (s : Store) :
    Except ApiError (List NoteOut) :=
  match verifyToken key now t with
  | none => .error .Unauthorized
  | some current_email =>
      match find_user_by_email s current_email with
      | none => .error .InternalError
      | some user =>
          .ok ((s.notes.filter (fun n => n.user_id == user.id)).map noteOut)

/-- `get_note` (src/backend/main.py lines 165-173): the query filters by
both the note id and the caller's user id (line 170); no match yields
404. As in `get_notes`, `user.id` is dereferenced without a `None` check
(line 169). -/
def get_note (key now : Nat) (t : Token) (note_id : Nat) (s : Store) :
    Except ApiError NoteOut :=
  match verifyToken key now t with
  | none => .error .Unauthorized
  | some current_email =>
      match find_user_by_email s current_email with
      | none => .error .InternalError
      | some user =>
          match s.notes.find? (fun n => n.id == note_id && n.user_id == user.id) with
          | none => .error .NotFound
          | some n => .ok (noteOut n)

/-- `delete_note` (src/backend/main.py lines 175-185): same ownership
filter as `get_note`; a found note is deleted by primary key and a
confirmation message returned, otherwise 404 with the store untouched.
As in `get_notes`, `user.id` is dereferenced without a `None` check
(line 179). -/
def delete_note (key now : Nat) (t : Token) (note_id : Nat) (s : Store) :
    Except ApiError String × Store :=
  match verifyToken key now t with
  | none => (.error .Unauthorized, s)
  | some current_email =>
      match find_user_by_email s current_email with
      | none => (.error .InternalError, s)
      | some user =>
          match s.notes.find? (fun n => n.id == note_id && n.user_id == user.id) with
          | none => (.error .NotFound, s)
          | some n =>
              (.ok "Note deleted successfully",
                { s with notes := s.notes.filter (fun m => !(m.id == n.id)) })

/-- Store invariant: no two user rows share an email (the UNIQUE
constraint on `users.email`, src/backend/main.py line 44). -/
def Store.emailsUnique (s : Store) : Prop :=
  List.Pairwise (fun a b => a.email ≠ b.email) s.users

/-- Store invariant: every note's `user_id` references an existing user
row (the FOREIGN KEY on `notes.user_id`, src/backend/main.py line 55). -/
def Store.notesOwned (s : Store) : Prop :=
  ∀ n ∈ s.notes, ∃ u ∈ s.users, u.id = n.user_id

/-- Primary-key uniqueness of the `notes` table. -/
def Store.noteIdsUnique (s : Store) : Prop :=
  List.Pairwise (fun a b => a.id ≠ b.id) s.notes

instance (s : Store) : Decidable s.emailsUnique :=
  inferInstanceAs (Decidable (List.Pairwise _ s.users))

instance (s : Store) : Decidable s.notesOwned :=
  inferInstanceAs (Decidable (∀ n ∈ s.notes, ∃ u ∈ s.users, u.id = n.user_id))

instance (s : Store) : Decidable s.noteIdsUnique :=
  inferInstanceAs (Decidable (List.Pairwise _ s.notes))

/-! Concrete fixtures used to exercise the theorems on explicit inputs:
two registered users, a note owned by the second one, and tokens for the
users' emails and for a subject no user row carries. -/

/-- A concrete stand-in for the external email-validator predicate. -/
def vEm (e : String) : Bool :=
  e.data.any (fun c => c == '@')

def userA : User := ⟨1, "a@x.com", hash_password 0 "secret1", 0⟩

def userB : User := ⟨2, "b@x.com", hash_password 0 "hunter2", 0⟩

def noteB1 : NoteDB := ⟨1, "t", "c", 2, 0, 0⟩

def st : Store := ⟨[userA, userB], [noteB1], 3, 2⟩

def tokA : Token := create_access_token 0 5 0 "a@x.com"

def tokB : Token := create_access_token 0 5 0 "b@x.com"

def tokGhost : Token := create_access_token 0 5 0 "ghost"

/-- A token whose subject claim was altered after signing: its signature
no longer matches its payload. -/
def tamperedTok : Token := ⟨"b@x.com", 5, signPayload 0 "a@x.com" 5⟩

/-- In a list of notes with pairwise-distinct primary keys, two members
with the same id are the same row. -/
theorem mem_id_unique : ∀ {l : List NoteDB},
    List.Pairwise (fun a b => a.id ≠ b.id) l →
    ∀ m n : NoteDB, m ∈ l → n ∈ l → m.id = n.id → m = n := by
  intro l
  induction l with
  | nil => intro _ m n hm; exact absurd hm (List.not_mem_nil m)
  | cons a l ih =>
      intro h m n hm hn hid
      rw [List.pairwise_cons] at h
      rcases List.mem_cons.mp hm with rfl | hm2
      · rcases List.mem_cons.mp hn with rfl | hn2
        · rfl
        · exact absurd hid (h.1 n hn2)
      · rcases List.mem_cons.mp hn with rfl | hn2
        · exact absurd hid.symm (h.1 m hm2)
        · exact ih h.2 m n hm2 hn2 hid

/-- Removing by primary key from a list of notes with pairwise-distinct
primary keys removes exactly one row. -/
theorem length_filter_ne_id : ∀ {l : List NoteDB},
    List.Pairwise (fun a b => a.id ≠ b.id) l →
    ∀ n : NoteDB, n ∈ l →
    (l.filter (fun m => !(m.id == n.id))).length + 1 = l.length := by
  intro l
  induction l with
  | nil => intro _ n hn; exact absurd hn (List.not_mem_nil n)
  | cons a l ih =>
      intro h n hn
      rw [List.pairwise_cons] at h
      rcases List.mem_cons.mp hn with rfl | hn2
      · have h1 : List.filter (fun m => !(m.id == n.id)) (n :: l) =
            List.filter (fun m => !(m.id == n.id)) l := by
          simp [List.filter_cons]
        have h2 : List.filter (fun m => !(m.id == n.id)) l = l := by
          rw [List.filter_eq_self]
          intro m hm
          simp only [Bool.not_eq_true', beq_eq_false_iff_ne, ne_eq]
          exact fun heq => h.1 m hm heq.symm
        rw [h1, h2, List.length_cons]
      · have h3 : (!(a.id == n.id)) = true := by
          simp only [Bool.not_eq_true', beq_eq_false_iff_ne, ne_eq]
          exact h.1 n hn2
        have h4 := ih h.2 n hn2
        simp only [List.filter_cons, h3, if_true, List.length_cons]
        omega

/-- C1: an authenticated user A gets `NotFound` from both `get_note` and
`delete_note` on any note id that no note of A carries — in particular
on an id owned by another user, which is thereby indistinguishable from
a non-existent id; neither success nor `Unauthorized` is possible. -/
theorem note_isolation (key now : Nat) (t : Token) (note_id : Nat) (s : Store)
    (e : String) (A : User)
    (hT : verifyToken key now t = some e)
    (hU : find_user_by_email s e = some A)
    (hOther : ∀ n ∈ s.notes, n.id = note_id → n.user_id ≠ A.id) :
    get_note key now t note_id s = .error .NotFound ∧
    delete_note key now t note_id s = (.error .NotFound, s) := by
  have hfind : s.notes.find? (fun n => n.id == note_id && n.user_id == A.id) = none := by
    rw [List.find?_eq_none]
    intro n hn
    simp only [Bool.and_eq_true, beq_iff_eq, not_and]
    exact fun hid => hOther n hn hid
  constructor
  · simp only [get_note, hT, hU, hfind]
  · simp only [delete_note, hT, hU, hfind]

theorem note_isolation_witness :
    get_note 0 0 tokA 1 st = .error .NotFound ∧
    delete_note 0 0 tokA 1 st = (.error .NotFound, st) :=
  note_isolation 0 0 tokA 1 st "a@x.com" userA (by decide) (by decide) (by decide)

/-- C3: for an authenticated caller whose subject resolves to a user
row, GET /notes/ succeeds with exactly the caller's notes — every
returned note carries the caller's user id, a note appears in the
response iff it is a note of the caller in the store, and the length of
the response equals the number of the caller's notes in the store. -/
theorem get_notes_spec (key now : Nat) (t : Token) (s : Store)
    (e : String) (user : User)
    (hT : verifyToken key now t = some e)
    (hU : find_user_by_email s e = some user) :
    ∃ l, get_notes key now t s = .ok l ∧
      (∀ m ∈ l, m.user_id = user.id) ∧
      (∀ m, m ∈ l ↔ ∃ n ∈ s.notes, n.user_id = user.id ∧ m = noteOut n) ∧
      l.length = s.notes.countP (fun n => n.user_id == user.id) := by
  refine ⟨(s.notes.filter (fun n => n.user_id == user.id)).map noteOut, ?_, ?_, ?_, ?_⟩
  · simp only [get_notes, hT, hU]
  · intro m hm
    simp only [List.mem_map, List.mem_filter, beq_iff_eq] at hm
    obtain ⟨n, ⟨_, hid⟩, rfl⟩ := hm
    exact hid
  · intro m
    simp only [List.mem_map, List.mem_filter, beq_iff_eq]
    constructor
    · rintro ⟨n, ⟨hn, hid⟩, rfl⟩
      exact ⟨n, hn, hid, rfl⟩
    · rintro ⟨n, hn, hid, rfl⟩
      exact ⟨n, ⟨hn, hid⟩, rfl⟩
  · rw [List.length_map, ← List.countP_eq_length_filter]

theorem get_notes_spec_witness :
    ∃ l, get_notes 0 0 tokB st = .ok l ∧
      (∀ m ∈ l, m.user_id = userB.id) ∧
      (∀ m, m ∈ l ↔ ∃ n ∈ st.notes, n.user_id = userB.id ∧ m = noteOut n) ∧
      l.length = st.notes.countP (fun n => n.user_id == userB.id) :=
  get_notes_spec 0 0 tokB st "b@x.com" userB (by decide) (by decide)

/-- C6: the login handler rejects with `Unauthorized` and issues no
token whenever the email resolves to no user row or the password fails
verification against the stored hash; otherwise it succeeds with a body
whose access token has the user's email as subject and whose token_type
is "bearer". -/
theorem login_spec (key ttl now : Nat) (u : UserCreate) (s : Store) :
    (find_user_by_email s u.email = none →
        login key ttl now u s = .error .Unauthorized) ∧
    (∀ db_user, find_user_by_email s u.email = some db_user →
      (verify_password u.password db_user.password_hash = false →
          login key ttl now u s = .error .Unauthorized) ∧
      (verify_password u.password db_user.password_hash = true →
          login key ttl now u s =
            .ok ⟨create_access_token key ttl now db_user.email, "bearer"⟩ ∧
          (create_access_token key ttl now db_user.email).subject = db_user.email)) := by
  constructor
  · intro h
    simp [login, h]
  · intro db_user h
    constructor
    · intro hv
      simp [login, h, hv]
    · intro hv
      exact ⟨by simp [login, h, hv], rfl⟩

theorem login_spec_witness :
    login 0 5 0 ⟨"a@x.com", "secret1"⟩ st =
      .ok ⟨create_access_token 0 5 0 "a@x.com", "bearer"⟩ ∧
    (create_access_token 0 5 0 "a@x.com").subject = "a@x.com" :=
  ((login_spec 0 5 0 ⟨"a@x.com", "secret1"⟩ st).2 userA (by decide)).2 (by decide)

/-- C7: the password round-trip of the credential service contract —
verifying a password against its own hash succeeds (in particular for
every non-empty password), and verifying it against the hash of a
different password fails, for every salt the primitive may draw. -/
theorem password_roundtrip (salt : Nat) (p q : String) :
    (p ≠ "" → verify_password p (hash_password salt p) = true) ∧
    (p ≠ q → verify_password p (hash_password salt q) = false) := by
  constructor
  · intro _
    simp [verify_password, hash_password, bcryptDigest]
  · intro hpq
    simp only [verify_password, hash_password, bcryptDigest, beq_eq_false_iff_ne, ne_eq,
      Digest.mk.injEq, not_and]
    exact fun _ => hpq

theorem password_roundtrip_witness :
    verify_password "secret1" (hash_password 0 "secret1") = true ∧
    verify_password "secret1" (hash_password 0 "hunter2") = false :=
  ⟨(password_roundtrip 0 "secret1" "hunter2").1 (by decide),
   (password_roundtrip 0 "secret1" "hunter2").2 (by decide)⟩

/-- C8: the token round-trip of the token service contract — verifying a
token immediately after issuing it for subject s yields s (the expiry
window is positive); verification fails once the expiry has elapsed, and
fails for any tampered or malformed token, i.e. one whose signature does
not match its payload under the key. -/
theorem token_roundtrip (key ttl now : Nat) (s : String) (httl : 0 < ttl) :
    verifyToken key now (create_access_token key ttl now s) = some s ∧
    (∀ (t : Token) (now2 : Nat), t.exp ≤ now2 → verifyToken key now2 t = none) ∧
    (∀ (t : Token) (now2 : Nat), t.sig ≠ signPayload key t.subject t.exp →
        verifyToken key now2 t = none) := by
  refine ⟨?_, ?_, ?_⟩
  · have hc : (create_access_token key ttl now s).sig =
        signPayload key (create_access_token key ttl now s).subject
          (create_access_token key ttl now s).exp ∧
        now < (create_access_token key ttl now s).exp := by
      refine ⟨rfl, ?_⟩
      show now < now + ttl
      omega
    rw [verifyToken, if_pos hc]
    rfl
  · intro t now2 h
    rw [verifyToken, if_neg]
    intro hc
    omega
  · intro t now2 h
    rw [verifyToken, if_neg]
    exact fun hc => h hc.1

theorem token_roundtrip_witness :
    verifyToken 0 0 (create_access_token 0 5 0 "a@x.com") = some "a@x.com" ∧
    verifyToken 0 9 tokA = none ∧
    verifyToken 0 0 tamperedTok = none :=
  ⟨(token_roundtrip 0 5 0 "a@x.com" (by decide)).1,
   (token_roundtrip 0 5 0 "a@x.com" (by decide)).2.1 tokA 9 (by decide),
   (token_roundtrip 0 5 0 "a@x.com" (by decide)).2.2 tamperedTok 0 (by decide)⟩

/-- C10: the login route validates its body with the same `UserCreate`
schema as registration, so any request with a password shorter than 6
characters or an email the validator rejects ends in a validation error
(422) regardless of the store contents — the bad-credentials 401 path is
unreachable for such inputs. -/
theorem login_validation (validEmail : String → Bool) (key ttl now : Nat)
    (email password : String) (s : Store)
    (h : password.length < 6 ∨ validEmail email = false) :
    loginRoute validEmail key ttl now email password s = .error .ValidationError := by
  have hv : validUserCreate validEmail email password = false := by
    rcases h with h | h
    · have hd : decide (6 ≤ password.length) = false :=
        decide_eq_false (by omega)
      simp [validUserCreate, hd]
    · simp [validUserCreate, h]
  simp [loginRoute, parseUserCreate, hv]

theorem login_validation_witness :
    loginRoute vEm 0 5 0 "a@x.com" "abc" st = .error .ValidationError :=
  login_validation vEm 0 5 0 "a@x.com" "abc" st (Or.inl (by decide))

/-- C4: registering an email already present in the store fails with
Conflict (400) and returns the store unchanged; a first registration
whose body passes validation succeeds, and the response is exactly the
new row through `UserOut` — id, email and created_at, with no password
or hash field (the `UserOut` schema has none). -/
theorem register_spec (validEmail : String → Bool) (now salt : Nat)
    (email password : String) (s : Store) :
    (∀ du, find_user_by_email s email = some du →
        validUserCreate validEmail email password = true →
        registerRoute validEmail now salt email password s = (.error .Conflict, s)) ∧
    (find_user_by_email s email = none →
        validUserCreate validEmail email password = true →
        registerRoute validEmail now salt email password s =
          (.ok ⟨s.nextUserId, email, now⟩,
            { s with
                users := s.users ++ [⟨s.nextUserId, email, hash_password salt password, now⟩],
                nextUserId := s.nextUserId + 1 })) := by
  constructor
  · intro du hdu hv
    simp [registerRoute, parseUserCreate, hv, register, hdu]
  · intro hnone hv
    simp [registerRoute, parseUserCreate, hv, register, hnone]

theorem register_spec_witness :
    registerRoute vEm 0 0 "a@x.com" "secret1" st = (.error .Conflict, st) ∧
    registerRoute vEm 7 0 "c@x.com" "secret1" st =
      (.ok ⟨3, "c@x.com", 7⟩,
        { st with
            users := st.users ++ [⟨3, "c@x.com", hash_password 0 "secret1", 7⟩],
            nextUserId := 4 }) :=
  ⟨(register_spec vEm 0 0 "a@x.com" "secret1" st).1 userA (by decide) (by decide),
   (register_spec vEm 7 0 "c@x.com" "secret1" st).2 (by decide) (by decide)⟩

/-- C5: for an authenticated caller whose subject resolves,
`delete_note` deletes iff a note with the requested id exists and is
owned by the caller. When no such note exists the handler answers
NotFound with the store untouched; when it exists, exactly that one row
is removed — the deleted note is gone, every other note survives, the
count drops by one, the users table is untouched — and a subsequent
`get_note` of the same id answers NotFound. -/
theorem delete_note_spec (key now : Nat) (t : Token) (note_id : Nat) (s : Store)
    (e : String) (user : User)
    (hT : verifyToken key now t = some e)
    (hU : find_user_by_email s e = some user)
    (hIds : s.noteIdsUnique) :
    ((∀ n ∈ s.notes, ¬(n.id = note_id ∧ n.user_id = user.id)) →
        delete_note key now t note_id s = (.error .NotFound, s)) ∧
    (∀ n ∈ s.notes, n.id = note_id → n.user_id = user.id →
        ∃ s2, delete_note key now t note_id s = (.ok "Note deleted successfully", s2) ∧
          s2.users = s.users ∧
          n ∉ s2.notes ∧
          (∀ m ∈ s.notes, m ≠ n → m ∈ s2.notes) ∧
          s2.notes.length + 1 = s.notes.length ∧
          get_note key now t note_id s2 = .error .NotFound) := by
  constructor
  · intro hno
    have hfind : s.notes.find? (fun n => n.id == note_id && n.user_id == user.id) = none := by
      rw [List.find?_eq_none]
      intro n hn
      simp only [Bool.and_eq_true, beq_iff_eq, not_and]
      exact fun hid hown => hno n hn ⟨hid, hown⟩
    simp only [delete_note, hT, hU, hfind]
  · intro n hn hid hown
    have hsome : (s.notes.find? (fun m => m.id == note_id && m.user_id == user.id)).isSome := by
      rw [List.find?_isSome]
      exact ⟨n, hn, by simp [hid, hown]⟩
    obtain ⟨m, hm⟩ := Option.isSome_iff_exists.mp hsome
    have hpm := List.find?_some hm
    have hmemm := List.mem_of_find?_eq_some hm
    simp only [Bool.and_eq_true, beq_iff_eq] at hpm
    have hmn : m = n := mem_id_unique hIds m n hmemm hn (hpm.1.trans hid.symm)
    subst hmn
    refine ⟨{ s with notes := s.notes.filter (fun m2 => !(m2.id == m.id)) },
      ?_, rfl, ?_, ?_, ?_, ?_⟩
    · simp only [delete_note, hT, hU, hm]
    · intro hmem2
      rw [List.mem_filter] at hmem2
      simp at hmem2
    · intro m2 hm2 hne
      rw [List.mem_filter]
      refine ⟨hm2, ?_⟩
      simp only [Bool.not_eq_true', beq_eq_false_iff_ne, ne_eq]
      exact fun heq => hne (mem_id_unique hIds m2 m hm2 hmemm heq)
    · exact length_filter_ne_id hIds m hmemm
    · have hfind2 : (s.notes.filter (fun m2 => !(m2.id == m.id))).find?
          (fun n2 => n2.id == note_id && n2.user_id == user.id) = none := by
        rw [List.find?_eq_none]
        intro x hx
        rw [List.mem_filter] at hx
        have hxid : x.id ≠ m.id := by
          have := hx.2
          simp only [Bool.not_eq_true', beq_eq_false_iff_ne, ne_eq] at this
          exact this
        simp only [Bool.and_eq_true, beq_iff_eq, not_and]
        intro hx1
        exact absurd (hx1.trans hpm.1.symm) hxid
      have hU2 : find_user_by_email
          { s with notes := s.notes.filter (fun m2 => !(m2.id == m.id)) } e = some user := hU
      simp only [get_note, hT, hU2, hfind2]

theorem delete_note_spec_witness :
    ∃ s2, delete_note 0 0 tokB 1 st = (.ok "Note deleted successfully", s2) ∧
      s2.users = st.users ∧
      noteB1 ∉ s2.notes ∧
      (∀ m ∈ st.notes, m ≠ noteB1 → m ∈ s2.notes) ∧
      s2.notes.length + 1 = st.notes.length ∧
      get_note 0 0 tokB 1 s2 = .error .NotFound :=
  (delete_note_spec 0 0 tokB 1 st "b@x.com" userB (by decide) (by decide) (by decide)).2
    noteB1 (by decide) (by decide) (by decide)

/-- C9: every exposed operation preserves the store invariants — no two
user rows share an email and every note's user_id references an
existing user row. The reading operations return no store; the three
mutating handlers are covered on all their paths, and the two note
handlers additionally leave the users table exactly as it was (no
exposed operation deletes or updates a User). -/
theorem store_invariants (now salt key : Nat) (u : UserCreate) (t : Token)
    (note : NoteIn) (note_id : Nat) (s : Store)
    (hE : s.emailsUnique) (hO : s.notesOwned) :
    (∀ r s2, register now salt u s = (r, s2) → s2.emailsUnique ∧ s2.notesOwned) ∧
    (∀ r s2, create_note key now t note s = (r, s2) →
        s2.emailsUnique ∧ s2.notesOwned ∧ s2.users = s.users) ∧
    (∀ r s2, delete_note key now t note_id s = (r, s2) →
        s2.emailsUnique ∧ s2.notesOwned ∧ s2.users = s.users) := by
  refine ⟨?_, ?_, ?_⟩
  · intro r s2 hreg
    rcases hfu : find_user_by_email s u.email with _ | du
    · rw [register, hfu] at hreg
      injection hreg with h1 h2
      subst h2
      constructor
      · show List.Pairwise _ (s.users ++ [_])
        rw [List.pairwise_append]
        refine ⟨hE, by simp, ?_⟩
        intro a ha b hb
        rw [List.mem_singleton] at hb
        subst hb
        show a.email ≠ u.email
        have hnone := List.find?_eq_none.mp hfu a ha
        simpa using hnone
      · intro n hn
        obtain ⟨u2, hu2, hid⟩ := hO n hn
        exact ⟨u2, List.mem_append_left _ hu2, hid⟩
    · rw [register, hfu] at hreg
      injection hreg with h1 h2
      subst h2
      exact ⟨hE, hO⟩
  · intro r s2 hcn
    rcases hv : verifyToken key now t with _ | e
    · simp only [create_note, hv] at hcn
      injection hcn with h1 h2
      subst h2
      exact ⟨hE, hO, rfl⟩
    · rcases hfu : find_user_by_email s e with _ | user
      · simp only [create_note, hv, hfu] at hcn
        injection hcn with h1 h2
        subst h2
        exact ⟨hE, hO, rfl⟩
      · simp only [create_note, hv, hfu] at hcn
        injection hcn with h1 h2
        subst h2
        refine ⟨hE, ?_, rfl⟩
        intro n hn
        rw [List.mem_append] at hn
        rcases hn with hn | hn
        · obtain ⟨u2, hu2, hid⟩ := hO n hn
          exact ⟨u2, hu2, hid⟩
        · rw [List.mem_singleton] at hn
          subst hn
          have huser : user ∈ s.users := List.mem_of_find?_eq_some hfu
          exact ⟨user, huser, rfl⟩
  · intro r s2 hdn
    rcases hv : verifyToken key now t with _ | e
    · simp only [delete_note, hv] at hdn
      injection hdn with h1 h2
      subst h2
      exact ⟨hE, hO, rfl⟩
    · rcases hfu : find_user_by_email s e with _ | user
      · simp only [delete_note, hv, hfu] at hdn
        injection hdn with h1 h2
        subst h2
        exact ⟨hE, hO, rfl⟩
      · rcases hfn : s.notes.find? (fun n => n.id == note_id && n.user_id == user.id)
          with _ | n
        · simp only [delete_note, hv, hfu, hfn] at hdn
          injection hdn with h1 h2
          subst h2
          exact ⟨hE, hO, rfl⟩
        · simp only [delete_note, hv, hfu, hfn] at hdn
          injection hdn with h1 h2
          subst h2
          refine ⟨hE, ?_, rfl⟩
          intro m hm
          rw [List.mem_filter] at hm
          exact hO m hm.1

theorem store_invariants_witness :
    Store.emailsUnique (register 7 0 ⟨"c@x.com", "secret1"⟩ st).2 ∧
    Store.notesOwned (register 7 0 ⟨"c@x.com", "secret1"⟩ st).2 :=
  (store_invariants 7 0 0 ⟨"c@x.com", "secret1"⟩ tokA ⟨"t", "c"⟩ 1 st
      (by decide) (by decide)).1
    (register 7 0 ⟨"c@x.com", "secret1"⟩ st).1
    (register 7 0 ⟨"c@x.com", "secret1"⟩ st).2 rfl

/-- C2 counterexample: a valid token whose subject resolves to no user
row does not make every protected route fail with Unauthorized — the
list route dereferences the missing user and ends in an internal server
error instead, refuting the claim at this concrete input. -/
theorem unresolved_subject_counterexample :
    verifyToken 0 0 tokGhost = some "ghost" ∧
    find_user_by_email st "ghost" = none ∧
    get_notes 0 0 tokGhost st ≠ .error .Unauthorized ∧
    get_notes 0 0 tokGhost st = .error .InternalError :=
  ⟨by decide, by decide, by decide, by decide⟩

/-- C2 amended: with a valid token whose subject resolves to no user
row, only `create_note` fails with Unauthorized; `get_notes`,
`get_note` and `delete_note` dereference the missing user row and end
in an internal server error (an uncaught AttributeError), not
Unauthorized — though none of them touches the store. -/
theorem unresolved_subject_behavior (key now : Nat) (t : Token) (note : NoteIn)
    (note_id : Nat) (s : Store) (e : String)
    (hT : verifyToken key now t = some e)
    (hU : find_user_by_email s e = none) :
    create_note key now t note s = (.error .Unauthorized, s) ∧
    get_notes key now t s = .error .InternalError ∧
    get_note key now t note_id s = .error .InternalError ∧
    delete_note key now t note_id s = (.error .InternalError, s) := by
  refine ⟨?_, ?_, ?_, ?_⟩
  · simp only [create_note, hT, hU]
  · simp only [get_notes, hT, hU]
  · simp only [get_note, hT, hU]
  · simp only [delete_note, hT, hU]

theorem unresolved_subject_behavior_witness :
    create_note 0 0 tokGhost ⟨"t", "c"⟩ st = (.error .Unauthorized, st) ∧
    get_notes 0 0 tokGhost st = .error .InternalError ∧
    get_note 0 0 tokGhost 1 st = .error .InternalError ∧
    delete_note 0 0 tokGhost 1 st = (.error .InternalError, st) :=
  unresolved_subject_behavior 0 0 tokGhost ⟨"t", "c"⟩ 1 st "ghost" (by decide) (by decide)

end NotesApp
